import Mathlib

/-!
Verification of the Express products API (server.js) against its
natural-language specification.  The server is shallowly embedded: request
bodies are modelled as JavaScript values, the in-memory `products` array as a
`List Product`, every handler as a pure function from the store and the
request data to a response and a new store, and JavaScript number arithmetic
as exact rational arithmetic (implemented with executable `Rat.divInt`-based
helpers so that concrete runs reduce in the kernel, with bridge lemmas to the
mathematical operations).
-/

deriving instance DecidableEq for Except

/-- A JavaScript value, as far as the request bodies and headers of this API
are concerned: `undefined`, `null`, strings, numbers and booleans. -/
inductive JSValue where
  | undefined
  | null
  | str (s : String)
  | num (q : ℚ)
  | bool (b : Bool)
deriving DecidableEq

/-- JavaScript truthiness of a value (`!v` is its negation): `undefined` and
`null` are falsy, a string is truthy iff non-empty, a number is truthy iff
non-zero, a boolean is itself. -/
def jsTruthy : JSValue → Bool
  | .undefined => false
  | .null => false
  | .str s => !(s == "")
  | .num q => decide (q ≠ 0)
  | .bool b => b

/-- Whether `typeof v === "string"`. -/
def JSValue.isStr : JSValue → Bool
  | .str _ => true
  | _ => false

/-- Whether `typeof v === "number"`. -/
def JSValue.isNum : JSValue → Bool
  | .num _ => true
  | _ => false

/-- Whether `typeof v === "boolean"`. -/
def JSValue.isBool : JSValue → Bool
  | .bool _ => true
  | _ => false

/-- The string carried by a value (defaulting to `""`). -/
def JSValue.getStr : JSValue → String
  | .str s => s
  | _ => ""

/-- The number carried by a value (defaulting to `0`). -/
def JSValue.getNum : JSValue → ℚ
  | .num q => q
  | _ => 0

/-- The boolean carried by a value (defaulting to `false`). -/
def JSValue.getBool : JSValue → Bool
  | .bool b => b
  | _ => false

/-- JavaScript `String.prototype.trim`: strip whitespace from both ends. -/
def jsTrim (s : String) : String :=
  ⟨((s.data.dropWhile Char.isWhitespace).reverse.dropWhile Char.isWhitespace).reverse⟩

/-- JavaScript `String.prototype.toLowerCase`: lower-case every character. -/
def jsToLower (s : String) : String :=
  ⟨s.data.map Char.toLower⟩

/-- Truthiness of an optional string (a header or query-string field, which is
either absent, i.e. `undefined`, or a string). -/
def jsStrTruthy : Option String → Bool
  | none => false
  | some s => !(s == "")

/-- Does the character list `hay` start with `needle`? -/
def charsStart : List Char → List Char → Bool
  | _, [] => true
  | [], _ :: _ => false
  | a :: as, b :: bs => a == b && charsStart as bs

/-- Does the character list `hay` contain `needle` as a contiguous run? -/
def charsHave : List Char → List Char → Bool
  | [], needle => needle.isEmpty
  | a :: as, needle => charsStart (a :: as) needle || charsHave as needle

/-- JavaScript `String.prototype.includes`: substring containment. -/
def strIncludes (hay needle : String) : Bool :=
  charsHave hay.data needle.data

/-! ## Exact rational counterparts of the JavaScript number operations

Implemented directly on numerators and denominators with `Rat.divInt`, so
that they reduce inside the kernel; lemmas below identify them with the
mathematical operations of `ℚ`. -/

/-- Rational addition (JavaScript `+` on numbers). -/
def qadd (x y : ℚ) : ℚ :=
  Rat.divInt (x.num * (y.den : Int) + y.num * (x.den : Int)) ((x.den : Int) * (y.den : Int))

/-- Rational multiplication (JavaScript `*` on numbers). -/
def qmul (x y : ℚ) : ℚ :=
  Rat.divInt (x.num * y.num) ((x.den : Int) * (y.den : Int))

/-- Rational division (JavaScript `/` on numbers, divisor non-zero). -/
def qdiv (x y : ℚ) : ℚ :=
  Rat.divInt (x.num * (y.den : Int)) ((x.den : Int) * y.num)

/-- Floor of a rational (`⌊x⌋`). -/
def qfloor (x : ℚ) : Int :=
  x.num / (x.den : Int)

/-- Ceiling of a rational: JavaScript `Math.ceil`. -/
def qceil (x : ℚ) : Int :=
  -((-x.num) / (x.den : Int))

/-- JavaScript `Math.round`: round half toward positive infinity. -/
def jsRound (x : ℚ) : Int :=
  qfloor (qadd x (mkRat 1 2))

/-- JavaScript `Math.min` on two numbers. -/
def qmin (x y : ℚ) : ℚ :=
  if x ≤ y then x else y

/-- JavaScript `Math.max` on two numbers. -/
def qmax (x y : ℚ) : ℚ :=
  if x ≤ y then y else x

/-! ## Data model -/

/-- A product record, exactly the six fields the handlers store
(server.js lines 12-37, 250-257, 275-282). -/
structure Product where
  id : String
  name : String
  description : String
  price : ℚ
  category : String
  inStock : Bool
deriving DecidableEq

/-- The first seed record (server.js lines 13-20). -/
def seedLaptop : Product :=
  { id := "1", name := "Laptop",
    description := "High-performance laptop with 16GB RAM",
    price := 1200, category := "electronics", inStock := true }

/-- The second seed record (server.js lines 21-28). -/
def seedSmartphone : Product :=
  { id := "2", name := "Smartphone",
    description := "Latest model with 128GB storage",
    price := 800, category := "electronics", inStock := true }

/-- The third seed record (server.js lines 29-36). -/
def seedCoffeeMaker : Product :=
  { id := "3", name := "Coffee Maker",
    description := "Programmable coffee maker with timer",
    price := 50, category := "kitchen", inStock := false }

/-- The three seed records of the in-memory store (server.js lines 12-37). -/
def initialProducts : List Product :=
  [seedLaptop, seedSmartphone, seedCoffeeMaker]

/-- The error taxonomy (server.js lines 40-62), each kind carrying its
message; `statusCode` is the fixed HTTP status of the kind. -/
inductive ApiError where
  | notFound (message : String)
  | validation (message : String)
  | authentication (message : String)
deriving DecidableEq

/-- The fixed HTTP status attached to each error kind. -/
def ApiError.statusCode : ApiError → Nat
  | .notFound _ => 404
  | .validation _ => 400
  | .authentication _ => 401

/-! ## Access control (server.js lines 73-86) -/

/-- The fixed pre-shared secret compared against the x-api-key header. -/
def apiSecret : String := "your-secret-api-key"

/-- The authentication middleware: GET requests always pass; otherwise the
x-api-key header must be truthy and equal to the secret. -/
def authCheck (method : String) (apiKey : Option String) : Except ApiError Unit :=
  if method = "GET" then Except.ok ()
  else if !(jsStrTruthy apiKey) || !(apiKey == some apiSecret) then
    Except.error (ApiError.authentication "Invalid or missing API key")
  else Except.ok ()

/-! ## Validation (server.js lines 89-118) -/

/-- A request body, as destructured by the validator and the handlers: the
five documented fields plus whatever other fields the client sent. -/
structure ReqBody where
  name : JSValue
  description : JSValue
  price : JSValue
  category : JSValue
  inStock : JSValue
  extra : List (String × JSValue)
deriving DecidableEq

/-- The failure condition of the textual rules (name, description, category):
`!v || typeof v !== "string" || v.trim().length === 0`. -/
def badTextField (v : JSValue) : Bool :=
  !(jsTruthy v) || !(v.isStr) || ((jsTrim v.getStr).length == 0)

/-- The failure condition of the price rule:
`v === undefined || typeof v !== "number" || v < 0`. -/
def badPriceField (v : JSValue) : Bool :=
  (v == JSValue.undefined) || !(v.isNum) || decide (v.getNum < 0)

/-- The failure condition of the inStock rule:
`v === undefined || typeof v !== "boolean"`. -/
def badInStockField (v : JSValue) : Bool :=
  (v == JSValue.undefined) || !(v.isBool)

def nameRuleMsg : String := "Name is required and must be a non-empty string"

def descriptionRuleMsg : String := "Description is required and must be a non-empty string"

def priceRuleMsg : String := "Price is required and must be a non-negative number"

def categoryRuleMsg : String := "Category is required and must be a non-empty string"

def inStockRuleMsg : String := "inStock is required and must be a boolean"

/-- The list of error messages accumulated by `validateProduct`
(server.js lines 89-111), one per violated rule, in source order. -/
def validateProduct (b : ReqBody) : List String :=
  (if badTextField b.name then [nameRuleMsg] else []) ++
  (if badTextField b.description then [descriptionRuleMsg] else []) ++
  (if badPriceField b.price then [priceRuleMsg] else []) ++
  (if badTextField b.category then [categoryRuleMsg] else []) ++
  (if badInStockField b.inStock then [inStockRuleMsg] else [])

/-- The validation middleware outcome (server.js lines 113-117): pass, or a
`ValidationError` joining all messages with a comma separator. -/
def validationStage (b : ReqBody) : Except ApiError Unit :=
  match validateProduct b with
  | [] => Except.ok ()
  | e :: es => Except.error (ApiError.validation (String.intercalate ", " (e :: es)))

/-- The sanitized record built by the create and update handlers out of the
body fields and an id (server.js lines 250-257 and 275-282). -/
def sanitizedProduct (pid : String) (b : ReqBody) : Product :=
  { id := pid
  , name := jsTrim b.name.getStr
  , description := jsTrim b.description.getStr
  , price := b.price.getNum
  , category := jsToLower (jsTrim b.category.getStr)
  , inStock := b.inStock.getBool }

/-! ## List endpoint: filtering, parseInt coercion, slicing
(server.js lines 146-181) -/

/-- Query-string fields of `GET /api/products`. -/
structure ListQuery where
  category : Option String
  inStock : Option String
  page : Option String
  limit : Option String
deriving DecidableEq

/-- Category filter (case-insensitive equality) applied when the `category`
query value is truthy, then inStock filter (`value === "true"`) applied when
the `inStock` query value is present (server.js lines 150-162). -/
def applyFilters (ps : List Product) (q : ListQuery) : List Product :=
  let afterCategory :=
    if jsStrTruthy q.category then
      ps.filter (fun p => jsToLower p.category == jsToLower (q.category.getD ""))
    else ps
  match q.inStock with
  | some s => afterCategory.filter (fun p => p.inStock == (s == "true"))
  | none => afterCategory

/-- Decimal digit run of JavaScript `parseInt`, `none` when there is none. -/
def parseDecimal (cs : List Char) : Option Nat :=
  let ds := cs.takeWhile Char.isDigit
  if ds.isEmpty then none
  else some (ds.foldl (fun a d => a * 10 + (d.toNat - 48)) 0)

/-- Hexadecimal digit test. -/
def isHexDigitChar (c : Char) : Bool :=
  c.isDigit || ('a' ≤ c && c ≤ 'f') || ('A' ≤ c && c ≤ 'F')

/-- Value of a hexadecimal digit. -/
def hexDigitValue (c : Char) : Nat :=
  if c.isDigit then c.toNat - 48
  else if 'a' ≤ c && c ≤ 'f' then c.toNat - 87
  else c.toNat - 55

/-- Hexadecimal digit run after a `0x` marker. -/
def parseHexTail (cs : List Char) : Option Nat :=
  let ds := cs.takeWhile isHexDigitChar
  if ds.isEmpty then none
  else some (ds.foldl (fun a d => a * 16 + hexDigitValue d) 0)

/-- Unsigned part of JavaScript `parseInt`: a `0x`/`0X` marker switches to
base 16, otherwise the leading decimal digit run is taken. -/
def parseUnsigned : List Char → Option Nat
  | '0' :: 'x' :: rest => parseHexTail rest
  | '0' :: 'X' :: rest => parseHexTail rest
  | cs => parseDecimal cs

/-- JavaScript `parseInt` on a string (no radix argument): skip leading
whitespace, optional sign, then the leading digit run; `none` models `NaN`. -/
def jsParseInt (s : String) : Option Int :=
  match s.data.dropWhile Char.isWhitespace with
  | '-' :: rest => (parseUnsigned rest).map (fun n => -(n : Int))
  | '+' :: rest => (parseUnsigned rest).map (fun n => (n : Int))
  | cs => (parseUnsigned cs).map (fun n => (n : Int))

/-- `parseInt(value) || d`: the fallback kicks in when `parseInt` gives `NaN`
(absent or non-numeric value) or the falsy number `0`. -/
def parseIntDefault (o : Option String) (d : Int) : Int :=
  match o.bind jsParseInt with
  | none => d
  | some n => if n == 0 then d else n

/-- The effective `page` of a list request (server.js line 165). -/
def pageOf (q : ListQuery) : Int := parseIntDefault q.page 1

/-- The effective `limit` of a list request (server.js line 166). -/
def limitOf (q : ListQuery) : Int := parseIntDefault q.limit 10

/-- JavaScript `Array.prototype.slice` index resolution: a negative index
counts back from the end (clamped at 0), a non-negative one is clamped at
the length. -/
def jsSliceBound (len : Nat) (i : Int) : Nat :=
  if i < 0 then ((len : Int) + i).toNat else min i.toNat len

/-- JavaScript `Array.prototype.slice(start, stop)`. -/
def jsSlice {α : Type} (l : List α) (start stop : Int) : List α :=
  (l.drop (jsSliceBound l.length start)).take
    (jsSliceBound l.length stop - jsSliceBound l.length start)

/-- The pagination metadata object of the list response
(server.js lines 174-179). -/
structure Pagination where
  currentPage : Int
  totalPages : Int
  totalProducts : Nat
  productsPerPage : Int
deriving DecidableEq

/-- The `GET /api/products` handler (server.js lines 146-181): filter, then
slice `[(page-1)*limit, page*limit)`, with
`totalPages = Math.ceil(filtered.length / limit)`. -/
def getProducts (store : List Product) (q : ListQuery) : List Product × Pagination :=
  let filtered := applyFilters store q
  let page := pageOf q
  let limit := limitOf q
  let startIndex := (page - 1) * limit
  let endIndex := page * limit
  (jsSlice filtered startIndex endIndex,
   { currentPage := page
   , totalPages := qceil (qdiv ((filtered.length : ℚ)) ((limit : ℚ)))
   , totalProducts := filtered.length
   , productsPerPage := limit })

/-! ## Search endpoint (server.js lines 184-201) -/

/-- The search response body. -/
structure SearchResult where
  query : String
  results : List Product
  count : Nat
deriving DecidableEq

/-- The `GET /api/products/search` handler: a falsy `q` raises
`ValidationError`, otherwise every record whose lower-cased name or
description includes the lower-cased query is returned. -/
def searchProducts (store : List Product) (q : Option String) : Except ApiError SearchResult :=
  if jsStrTruthy q then
    let qs := q.getD ""
    let results := store.filter (fun p =>
      strIncludes (jsToLower p.name) (jsToLower qs) ||
      strIncludes (jsToLower p.description) (jsToLower qs))
    Except.ok { query := qs, results := results, count := results.length }
  else
    Except.error (ApiError.validation "Search query parameter \"q\" is required")

/-! ## Stats endpoint (server.js lines 204-235) -/

/-- The statistics response body; `categoryCounts` models the JS object as an
association list in key-insertion order. -/
structure Stats where
  totalProducts : Nat
  inStockCount : Nat
  outOfStockCount : Nat
  categoryCounts : List (String × Nat)
  averagePrice : ℚ
  priceMin : ℚ
  priceMax : ℚ
deriving DecidableEq

/-- `counts[c] = (counts[c] || 0) + 1` on the association-list model. -/
def bumpCategory (m : List (String × Nat)) (c : String) : List (String × Nat) :=
  match m with
  | [] => [(c, 1)]
  | (k, n) :: rest => if k = c then (k, n + 1) :: rest else (k, n) :: bumpCategory rest c

/-- Reading a key out of the association-list model of the JS object
(0 when absent). -/
def countLookup (m : List (String × Nat)) (c : String) : Nat :=
  match m with
  | [] => 0
  | (k, n) :: rest => if k = c then n else countLookup rest c

/-- `Math.min(...prices)` over a non-empty list (0 is never used: the caller
guards the empty store). -/
def minPriceOf : List ℚ → ℚ
  | [] => 0
  | a :: r => r.foldl qmin a

/-- `Math.max(...prices)` over a non-empty list. -/
def maxPriceOf : List ℚ → ℚ
  | [] => 0
  | a :: r => r.foldl qmax a

/-- The `GET /api/products/stats` handler (server.js lines 204-235). -/
def getStats (store : List Product) : Stats :=
  let totalPrice := store.foldl (fun s p => qadd s p.price) 0
  let prices := store.map (fun p => p.price)
  { totalProducts := store.length
  , inStockCount := (store.filter (fun p => p.inStock)).length
  , outOfStockCount := (store.filter (fun p => !p.inStock)).length
  , categoryCounts := store.foldl (fun m p => bumpCategory m p.category) []
  , averagePrice :=
      if 0 < store.length then
        Rat.divInt (jsRound (qmul (qdiv totalPrice ((store.length : ℚ))) 100)) 100
      else 0
  , priceMin := if 0 < store.length then minPriceOf prices else 0
  , priceMax := if 0 < store.length then maxPriceOf prices else 0 }

/-! ## Mutating handlers (server.js lines 249-306) -/

/-- `GET /api/products/:id` (server.js lines 238-246). -/
def getProductById (store : List Product) (pid : String) : Except ApiError (Nat × Product) :=
  match store.find? (fun p => p.id == pid) with
  | none => Except.error (ApiError.notFound ("Product with ID " ++ pid ++ " not found"))
  | some p => Except.ok (200, p)

/-- `POST /api/products` (server.js lines 249-265): auth, validation, then
append the sanitized record under the generated id; the pair is the response
and the new store. -/
def postProducts (store : List Product) (apiKey : Option String) (b : ReqBody)
    (genId : String) : Except ApiError (Nat × Product) × List Product :=
  match authCheck "POST" apiKey with
  | Except.error e => (Except.error e, store)
  | Except.ok _ =>
    match validationStage b with
    | Except.error e => (Except.error e, store)
    | Except.ok _ =>
      let p := sanitizedProduct genId b
      (Except.ok (201, p), store ++ [p])

/-- `PUT /api/products/:id` (server.js lines 268-290): auth, validation,
`findIndex` by id (404 when absent), then in-place replacement keeping the
id from the route parameter. -/
def putProduct (store : List Product) (apiKey : Option String) (pid : String)
    (b : ReqBody) : Except ApiError (Nat × Product) × List Product :=
  match authCheck "PUT" apiKey with
  | Except.error e => (Except.error e, store)
  | Except.ok _ =>
    match validationStage b with
    | Except.error e => (Except.error e, store)
    | Except.ok _ =>
      match store.findIdx? (fun p => p.id == pid) with
      | none =>
        (Except.error (ApiError.notFound ("Product with ID " ++ pid ++ " not found")), store)
      | some i =>
        let up := sanitizedProduct pid b
        (Except.ok (200, up), store.set i up)

/-- Placeholder record for the (unreachable) out-of-bounds read in the
delete handler model. -/
def dummyProduct : Product :=
  { id := "", name := "", description := "", price := 0, category := "", inStock := false }

/-- `DELETE /api/products/:id` (server.js lines 293-306): auth, `findIndex`
by id (404 when absent), then `splice` out the record and return it. -/
def deleteProduct (store : List Product) (apiKey : Option String)
    (pid : String) : Except ApiError (Nat × Product) × List Product :=
  match authCheck "DELETE" apiKey with
  | Except.error e => (Except.error e, store)
  | Except.ok _ =>
    match store.findIdx? (fun p => p.id == pid) with
    | none =>
      (Except.error (ApiError.notFound ("Product with ID " ++ pid ++ " not found")), store)
    | some i => (Except.ok (200, store.getD i dummyProduct), store.eraseIdx i)

/-! ## GET route dispatch (registration order of server.js
lines 130, 146, 184, 204, 238) -/

/-- Query-string fields relevant to the GET routes. -/
structure GetQuery where
  category : Option String
  inStock : Option String
  page : Option String
  limit : Option String
  q : Option String
deriving DecidableEq

/-- The response of a GET request, one constructor per handler outcome. -/
inductive GetResponse where
  | root
  | listing (products : List Product) (pagination : Pagination)
  | search (r : SearchResult)
  | stats (s : Stats)
  | single (p : Product)
  | apiError (e : ApiError)
  | routeMissing (method : String) (path : String)
deriving DecidableEq

/-- The HTTP status of a GET response. -/
def responseStatus : GetResponse → Nat
  | .apiError e => e.statusCode
  | .routeMissing _ _ => 404
  | _ => 200

/-- The capture of the `/api/products/:id` pattern: the single non-empty
segment after `/api/products/`, if the path has that shape. -/
def routeParam (path : String) : Option String :=
  let base := "/api/products/".data
  if charsStart path.data base then
    let rest := path.data.drop base.length
    if rest.isEmpty || rest.contains '/' then none else some ⟨rest⟩
  else none

/-- GET dispatch in the registration order of server.js: `/`, then
`/api/products`, then `/api/products/search`, then `/api/products/stats`,
then the parametric `/api/products/:id`, then the 404 catch-all. -/
def dispatchGet (store : List Product) (path : String) (q : GetQuery) : GetResponse :=
  if path = "/" then GetResponse.root
  else if path = "/api/products" then
    let r := getProducts store { category := q.category, inStock := q.inStock
                               , page := q.page, limit := q.limit }
    GetResponse.listing r.1 r.2
  else if path = "/api/products/search" then
    match searchProducts store q.q with
    | Except.ok r => GetResponse.search r
    | Except.error e => GetResponse.apiError e
  else if path = "/api/products/stats" then GetResponse.stats (getStats store)
  else
    match routeParam path with
    | some pid =>
      match getProductById store pid with
      | Except.ok r => GetResponse.single r.2
      | Except.error e => GetResponse.apiError e
    | none => GetResponse.routeMissing "GET" path

/-! ## Reachable stores -/

/-- One mutating request against the store (any api key, body, id and
generated id); read-only requests do not touch the store. -/
inductive StoreStep : List Product → List Product → Prop where
  | post (apiKey : Option String) (b : ReqBody) (genId : String) (s : List Product) :
      StoreStep s (postProducts s apiKey b genId).2
  | put (apiKey : Option String) (pid : String) (b : ReqBody) (s : List Product) :
      StoreStep s (putProduct s apiKey pid b).2
  | del (apiKey : Option String) (pid : String) (s : List Product) :
      StoreStep s (deleteProduct s apiKey pid).2

/-- A store state reachable from the seed by any sequence of requests. -/
def Reachable (s : List Product) : Prop :=
  Relation.ReflTransGen StoreStep initialProducts s

/-- The field rules of the data model, as the spec states them for records
held in the store: price is a non-negative number, the three string fields
are non-empty (`inStock` is a boolean by the type of `Product`). -/
def GoodProduct (p : Product) : Prop :=
  0 ≤ p.price ∧ p.name ≠ "" ∧ p.description ≠ "" ∧ p.category ≠ ""

/-! ## Spec-side readings of the validation rules (section 4.3 of the spec),
stated independently of the middleware code and compared with it below -/

/-- Spec reading of the textual rules: the value is present, is a string and
has non-whitespace content after trimming. -/
def specTextRuleOk (v : JSValue) : Bool :=
  match v with
  | .str s => !(jsTrim s == "")
  | _ => false

/-- Spec reading of the price rule: present, a number, and non-negative. -/
def specPriceRuleOk (v : JSValue) : Bool :=
  match v with
  | .num q => decide (0 ≤ q)
  | _ => false

/-- Spec reading of the inStock rule: present and a boolean. -/
def specInStockRuleOk (v : JSValue) : Bool :=
  match v with
  | .bool _ => true
  | _ => false

/-- The messages of the violated rules, one per rule, in rule order, with
every rule evaluated independently of the others. -/
def specViolations (b : ReqBody) : List String :=
  (if specTextRuleOk b.name then [] else [nameRuleMsg]) ++
  (if specTextRuleOk b.description then [] else [descriptionRuleMsg]) ++
  (if specPriceRuleOk b.price then [] else [priceRuleMsg]) ++
  (if specTextRuleOk b.category then [] else [categoryRuleMsg]) ++
  (if specInStockRuleOk b.inStock then [] else [inStockRuleMsg])

/-- Spec reading of the search match: `needle` occurs in `hay` as a
case-insensitive substring, i.e. the lower-cased needle is a contiguous run
of the lower-cased haystack. -/
def CaseInsensitiveSubstr (needle hay : String) : Prop :=
  ∃ l r, (jsToLower hay).data = l ++ (jsToLower needle).data ++ r

/-! ## Concrete fixtures used by witnesses and counterexamples -/

/-- A body with every field absent. -/
def emptyBody : ReqBody :=
  { name := JSValue.undefined, description := JSValue.undefined
  , price := JSValue.undefined, category := JSValue.undefined
  , inStock := JSValue.undefined, extra := [] }

/-- A body that passes validation, with padding to be trimmed, an upper-case
category, and a stray extra field. -/
def validBody : ReqBody :=
  { name := JSValue.str "  Phone ", description := JSValue.str "Nice phone"
  , price := JSValue.num 10, category := JSValue.str " Gadgets "
  , inStock := JSValue.bool true, extra := [("id", JSValue.str "evil")] }

/-- A 25-record store (reachable by 22 creates from the seed shape), used to
exhibit the behaviour of negative page values. -/
def cexStore : List Product :=
  (List.range 25).map (fun i =>
    { id := toString i, name := "P", description := "D"
    , price := 1, category := "c", inStock := true })

/-- A list query whose page parses to `-1`. -/
def cexQuery : ListQuery :=
  { category := none, inStock := none, page := some "-1", limit := none }

/-! ## Bridge lemmas: the executable rational helpers agree with the
mathematical operations of `ℚ` -/

theorem divInt_num_den (x : ℚ) : Rat.divInt x.num (x.den : Int) = x := by
  rw [Rat.divInt_eq_div]
  push_cast
  exact Rat.num_div_den x

theorem qadd_eq (x y : ℚ) : qadd x y = x + y := by
  unfold qadd
  conv_rhs => rw [← divInt_num_den x, ← divInt_num_den y,
    Rat.divInt_add_divInt _ _ (by exact_mod_cast x.den_nz) (by exact_mod_cast y.den_nz)]

theorem qmul_eq (x y : ℚ) : qmul x y = x * y := by
  unfold qmul
  conv_rhs => rw [← divInt_num_den x, ← divInt_num_den y,
    Rat.divInt_mul_divInt _ _ (by exact_mod_cast x.den_nz) (by exact_mod_cast y.den_nz)]

theorem qdiv_eq (x y : ℚ) : qdiv x y = x / y := by
  rcases eq_or_ne y.num 0 with h | h
  · have hy : y = 0 := Rat.num_eq_zero.mp h
    rw [qdiv, h, mul_zero, Rat.divInt_zero, hy, div_zero]
  · rw [qdiv, Rat.divInt_eq_div]
    conv_rhs => rw [← Rat.num_div_den x, ← Rat.num_div_den y]
    have hb : ((x.den : ℚ)) ≠ 0 := by exact_mod_cast x.den_nz
    have hd : ((y.den : ℚ)) ≠ 0 := by exact_mod_cast y.den_nz
    have hc : ((y.num : ℚ)) ≠ 0 := by exact_mod_cast h
    push_cast
    field_simp

theorem qfloor_eq (x : ℚ) : qfloor x = ⌊x⌋ := by
  rw [qfloor, Rat.floor_def]

theorem qceil_eq (x : ℚ) : qceil x = ⌈x⌉ := by
  have h : ((-x).num) / (((-x).den : Int)) = -⌈x⌉ := by
    rw [← Rat.floor_def]; exact Int.floor_neg
  rw [Rat.neg_num, Rat.neg_den] at h
  rw [qceil, h, neg_neg]

theorem mkRat_half : (mkRat 1 2 : ℚ) = 1 / 2 := by
  rw [Rat.mkRat_eq_divInt, Rat.divInt_eq_div]
  norm_num

theorem jsRound_eq (x : ℚ) : jsRound x = ⌊x + 1 / 2⌋ := by
  rw [jsRound, qfloor_eq, qadd_eq, mkRat_half]

theorem qmin_eq (x y : ℚ) : qmin x y = min x y := by
  rw [qmin, min_def]

theorem qmax_eq (x y : ℚ) : qmax x y = max x y := by
  rw [qmax, max_def]

/-! ## Bridge lemmas: strings -/

theorem string_mk_data (l : List Char) : (String.mk l).data = l := rfl

theorem string_ne_empty_of_length {s : String} (h : s.length ≠ 0) : s ≠ "" := by
  intro he
  rw [he] at h
  exact h rfl

theorem jsToLower_ne_empty {s : String} (h : s ≠ "") : jsToLower s ≠ "" := by
  intro he
  apply h
  rw [String.ext_iff] at he ⊢
  simpa [jsToLower, List.map_eq_nil_iff] using he

theorem charsStart_iff (h n : List Char) :
    charsStart h n = true ↔ ∃ t, h = n ++ t := by
  induction n generalizing h with
  | nil => simp [charsStart.eq_def]
  | cons b bs ih =>
    cases h with
    | nil => simp [charsStart]
    | cons a as =>
      simp only [charsStart, Bool.and_eq_true, beq_iff_eq, ih]
      constructor
      · rintro ⟨rfl, t, rfl⟩
        exact ⟨t, rfl⟩
      · rintro ⟨t, ht⟩
        rw [List.cons_append, List.cons_eq_cons] at ht
        exact ⟨ht.1, t, ht.2⟩

theorem charsHave_iff (h n : List Char) :
    charsHave h n = true ↔ ∃ l r, h = l ++ n ++ r := by
  induction h with
  | nil =>
    simp only [charsHave, List.isEmpty_iff]
    constructor
    · rintro rfl
      exact ⟨[], [], rfl⟩
    · rintro ⟨l, r, he⟩
      rcases (List.append_eq_nil.mp he.symm) with ⟨h1, h2⟩
      exact (List.append_eq_nil.mp h1).2
  | cons a as ih =>
    simp only [charsHave, Bool.or_eq_true, charsStart_iff, ih]
    constructor
    · rintro (⟨t, ht⟩ | ⟨l, r, hr⟩)
      · exact ⟨[], t, by simpa using ht⟩
      · exact ⟨a :: l, r, by simp [hr]⟩
    · rintro ⟨l, r, he⟩
      cases l with
      | nil => exact Or.inl ⟨r, by simpa using he⟩
      | cons x xs =>
        rw [List.cons_append, List.cons_append, List.cons_eq_cons] at he
        exact Or.inr ⟨xs, r, he.2⟩

theorem strIncludes_iff (hay needle : String) :
    strIncludes hay needle = true ↔ ∃ l r, hay.data = l ++ needle.data ++ r :=
  charsHave_iff hay.data needle.data

/-! ## Validation lemmas -/

theorem string_length_eq_zero_iff (s : String) : s.length = 0 ↔ s = "" := by
  constructor
  · intro h
    rw [String.ext_iff]
    exact List.length_eq_zero.mp h
  · rintro rfl
    rfl

theorem badTextField_eq (v : JSValue) : badTextField v = !(specTextRuleOk v) := by
  cases v with
  | undefined => rfl
  | null => rfl
  | num q => simp [badTextField, specTextRuleOk, JSValue.isStr]
  | bool b => simp [badTextField, specTextRuleOk, JSValue.isStr]
  | str s =>
    simp only [badTextField, specTextRuleOk, jsTruthy, JSValue.isStr, JSValue.getStr,
      Bool.not_not, Bool.not_true, Bool.or_false]
    rcases eq_or_ne (jsTrim s) "" with ht | ht
    · rcases eq_or_ne s "" with rfl | hs
      · rfl
      · have h3 : (s == "") = false := by simpa using hs
        rw [ht, h3]
        rfl
    · have hs : s ≠ "" := fun h => ht (by rw [h]; rfl)
      have h1 : (jsTrim s == "") = false := by simpa using ht
      have h2 : ((jsTrim s).length == 0) = false := by
        have hne : (jsTrim s).length ≠ 0 := fun hc => ht ((string_length_eq_zero_iff _).mp hc)
        simpa using hne
      have h3 : (s == "") = false := by simpa using hs
      rw [h1, h2, h3]
      rfl

theorem badPriceField_eq (v : JSValue) : badPriceField v = !(specPriceRuleOk v) := by
  cases v with
  | undefined => rfl
  | null => rfl
  | str s => rfl
  | bool b => rfl
  | num q =>
    simp only [badPriceField, specPriceRuleOk, JSValue.isNum, JSValue.getNum]
    rw [← decide_not]
    simp [not_le]

theorem badInStockField_eq (v : JSValue) : badInStockField v = !(specInStockRuleOk v) := by
  cases v <;> rfl

theorem validateProduct_eq_specViolations (b : ReqBody) :
    validateProduct b = specViolations b := by
  unfold validateProduct specViolations
  rw [badTextField_eq, badTextField_eq, badPriceField_eq, badTextField_eq, badInStockField_eq]
  cases h1 : specTextRuleOk b.name <;> cases h2 : specTextRuleOk b.description <;>
    cases h3 : specPriceRuleOk b.price <;> cases h4 : specTextRuleOk b.category <;>
      cases h5 : specInStockRuleOk b.inStock <;> rfl

theorem validationStage_ok_iff (b : ReqBody) :
    validationStage b = Except.ok () ↔ validateProduct b = [] := by
  unfold validationStage
  cases h : validateProduct b <;> simp

theorem validationStage_error (b : ReqBody) (h : validateProduct b ≠ []) :
    validationStage b =
      Except.error (ApiError.validation (String.intercalate ", " (validateProduct b))) := by
  unfold validationStage
  cases hv : validateProduct b with
  | nil => exact absurd hv h
  | cons e es => rfl

/-! ## Access control lemmas -/

theorem authCheck_get (k : Option String) : authCheck "GET" k = Except.ok () := rfl

theorem authCheck_secret (m : String) : authCheck m (some apiSecret) = Except.ok () := by
  unfold authCheck
  split
  · rfl
  · rfl

theorem authCheck_reject (m : String) (k : Option String) (hm : m ≠ "GET")
    (hk : k ≠ some apiSecret) :
    authCheck m k = Except.error (ApiError.authentication "Invalid or missing API key") := by
  unfold authCheck
  rw [if_neg hm]
  have h2 : (k == some apiSecret) = false := by simpa using hk
  rw [h2]
  simp

theorem authCheck_mutating_iff (m : String) (k : Option String) (hm : m ≠ "GET") :
    authCheck m k = Except.ok () ↔ k = some apiSecret := by
  constructor
  · intro h
    by_contra hk
    rw [authCheck_reject m k hm hk] at h
    simp at h
  · rintro rfl
    exact authCheck_secret m

/-- C2: for every candidate record, all five field rules are evaluated
independently (each violated rule contributes its message, in rule order,
regardless of the others), and validation fails with a `ValidationError`
(status 400) whose message joins every violated rule message with a comma
separator exactly when at least one rule is violated; it passes when none
is. -/
theorem impl_C2 (b : ReqBody) :
    validateProduct b = specViolations b
    ∧ (validationStage b = Except.ok () ↔ specViolations b = [])
    ∧ validationStage b =
        (if specViolations b = [] then Except.ok ()
         else Except.error (ApiError.validation (String.intercalate ", " (specViolations b))))
    ∧ (ApiError.validation (String.intercalate ", " (specViolations b))).statusCode = 400 := by
  have he := validateProduct_eq_specViolations b
  refine ⟨he, ?_, ?_, rfl⟩
  · rw [validationStage_ok_iff, he]
  · rcases eq_or_ne (specViolations b) [] with h | h
    · rw [if_pos h]
      exact (validationStage_ok_iff b).mpr (he.trans h)
    · rw [if_neg h, validationStage_error b (by rw [he]; exact h), he]

/-- C4: GET requests always pass access control; POST, PUT and DELETE pass
exactly when the x-api-key credential equals the fixed secret, and on a
missing or mismatching credential each mutating handler returns the 401
`AuthenticationError` and leaves the store unchanged. -/
theorem impl_C4 (m : String) (k : Option String) (store : List Product)
    (b : ReqBody) (genId pid : String) :
    authCheck "GET" k = Except.ok ()
    ∧ ((m = "POST" ∨ m = "PUT" ∨ m = "DELETE") →
        (authCheck m k = Except.ok () ↔ k = some apiSecret))
    ∧ (k ≠ some apiSecret →
        postProducts store k b genId =
          (Except.error (ApiError.authentication "Invalid or missing API key"), store)
        ∧ putProduct store k pid b =
          (Except.error (ApiError.authentication "Invalid or missing API key"), store)
        ∧ deleteProduct store k pid =
          (Except.error (ApiError.authentication "Invalid or missing API key"), store))
    ∧ (ApiError.authentication "Invalid or missing API key").statusCode = 401 := by
  refine ⟨authCheck_get k, ?_, ?_, rfl⟩
  · rintro (rfl | rfl | rfl) <;> exact authCheck_mutating_iff _ k (by decide)
  · intro hk
    refine ⟨?_, ?_, ?_⟩
    · unfold postProducts
      rw [authCheck_reject "POST" k (by decide) hk]
    · unfold putProduct
      rw [authCheck_reject "PUT" k (by decide) hk]
    · unfold deleteProduct
      rw [authCheck_reject "DELETE" k (by decide) hk]

/-- Witness for C4: a POST, PUT and DELETE against the seed store with no
credential are rejected with the 401 error and the store is unchanged. -/
theorem impl_C4_witness :
    (authCheck "POST" none = Except.ok () ↔ none = some apiSecret)
    ∧ postProducts initialProducts none emptyBody "99" =
        (Except.error (ApiError.authentication "Invalid or missing API key"), initialProducts)
    ∧ putProduct initialProducts none "1" emptyBody =
        (Except.error (ApiError.authentication "Invalid or missing API key"), initialProducts)
    ∧ deleteProduct initialProducts none "1" =
        (Except.error (ApiError.authentication "Invalid or missing API key"), initialProducts) := by
  have h := impl_C4 "POST" none initialProducts emptyBody "99" "1"
  have h3 := h.2.2.1 (by decide)
  exact ⟨h.2.1 (Or.inl rfl), h3.1, h3.2.1, h3.2.2⟩

/-! ## The C1 store invariant -/

theorem validate_nil_parts (b : ReqBody) (h : validateProduct b = []) :
    badTextField b.name = false ∧ badTextField b.description = false ∧
    badPriceField b.price = false ∧ badTextField b.category = false ∧
    badInStockField b.inStock = false := by
  unfold validateProduct at h
  cases h1 : badTextField b.name <;> cases h2 : badTextField b.description <;>
    cases h3 : badPriceField b.price <;> cases h4 : badTextField b.category <;>
      cases h5 : badInStockField b.inStock <;> simp_all

theorem goodText_of_not_bad {v : JSValue} (h : badTextField v = false) :
    jsTrim v.getStr ≠ "" := by
  cases v with
  | undefined => simp [badTextField, jsTruthy] at h
  | null => simp [badTextField, jsTruthy] at h
  | num q => simp [badTextField, JSValue.isStr] at h
  | bool b => simp [badTextField, JSValue.isStr] at h
  | str s =>
    simp only [badTextField, jsTruthy, JSValue.isStr, JSValue.getStr, Bool.not_true,
      Bool.not_not, Bool.or_false, Bool.or_eq_false_iff] at h
    simp only [JSValue.getStr]
    intro hc
    have hlen := h.2
    rw [hc] at hlen
    simp at hlen

theorem goodPrice_of_not_bad {v : JSValue} (h : badPriceField v = false) :
    0 ≤ v.getNum := by
  cases v with
  | undefined => simp [badPriceField] at h
  | null => simp [badPriceField, JSValue.isNum] at h
  | str s => simp [badPriceField, JSValue.isNum] at h
  | bool b => simp [badPriceField, JSValue.isNum] at h
  | num q =>
    simp only [badPriceField, JSValue.isNum, JSValue.getNum, Bool.not_true, Bool.or_false,
      Bool.or_eq_false_iff, decide_eq_false_iff_not, not_lt] at h
    exact h.2

theorem sanitizedProduct_good (pid : String) (b : ReqBody)
    (h : validateProduct b = []) : GoodProduct (sanitizedProduct pid b) := by
  obtain ⟨h1, h2, h3, h4, h5⟩ := validate_nil_parts b h
  exact ⟨goodPrice_of_not_bad h3, goodText_of_not_bad h1, goodText_of_not_bad h2,
    jsToLower_ne_empty (goodText_of_not_bad h4)⟩

theorem postProducts_store (s : List Product) (k : Option String) (b : ReqBody)
    (g : String) :
    (postProducts s k b g).2 = s ∨
      (validateProduct b = [] ∧ (postProducts s k b g).2 = s ++ [sanitizedProduct g b]) := by
  unfold postProducts
  cases authCheck "POST" k with
  | error e => exact Or.inl rfl
  | ok u =>
    cases hv : validationStage b with
    | error e => exact Or.inl rfl
    | ok u2 =>
      cases u2
      exact Or.inr ⟨(validationStage_ok_iff b).mp hv, rfl⟩

theorem putProduct_store (s : List Product) (k : Option String) (pid : String)
    (b : ReqBody) :
    (putProduct s k pid b).2 = s ∨
      (validateProduct b = [] ∧
        ∃ i, (putProduct s k pid b).2 = s.set i (sanitizedProduct pid b)) := by
  unfold putProduct
  cases authCheck "PUT" k with
  | error e => exact Or.inl rfl
  | ok u =>
    cases hv : validationStage b with
    | error e => exact Or.inl rfl
    | ok u2 =>
      cases u2
      cases hf : s.findIdx? (fun p => p.id == pid) with
      | none => exact Or.inl rfl
      | some i => exact Or.inr ⟨(validationStage_ok_iff b).mp hv, i, rfl⟩

theorem deleteProduct_store (s : List Product) (k : Option String) (pid : String) :
    (deleteProduct s k pid).2 = s ∨ ∃ i, (deleteProduct s k pid).2 = s.eraseIdx i := by
  unfold deleteProduct
  cases authCheck "DELETE" k with
  | error e => exact Or.inl rfl
  | ok u =>
    cases hf : s.findIdx? (fun p => p.id == pid) with
    | none => exact Or.inl rfl
    | some i => exact Or.inr ⟨i, rfl⟩

theorem storeStep_good {s t : List Product} (st : StoreStep s t)
    (hs : ∀ p ∈ s, GoodProduct p) : ∀ p ∈ t, GoodProduct p := by
  intro p hp
  cases st with
  | post k b g s =>
    rcases postProducts_store s k b g with h | ⟨hv, h⟩
    · rw [h] at hp
      exact hs p hp
    · rw [h] at hp
      rcases List.mem_append.mp hp with hm | hm
      · exact hs p hm
      · rw [List.mem_singleton.mp hm]
        exact sanitizedProduct_good g b hv
  | put k pid b s =>
    rcases putProduct_store s k pid b with h | ⟨hv, i, h⟩
    · rw [h] at hp
      exact hs p hp
    · rw [h] at hp
      rcases List.mem_or_eq_of_mem_set hp with hm | rfl
      · exact hs p hm
      · exact sanitizedProduct_good pid b hv
  | del k pid s =>
    rcases deleteProduct_store s k pid with h | ⟨i, h⟩
    · rw [h] at hp
      exact hs p hp
    · rw [h] at hp
      exact hs p (List.mem_of_mem_eraseIdx hp)

theorem initialProducts_good : ∀ p ∈ initialProducts, GoodProduct p := by
  intro p hp
  simp only [initialProducts, List.mem_cons, List.not_mem_nil, or_false] at hp
  rcases hp with rfl | rfl | rfl
  all_goals exact ⟨by decide, by decide, by decide, by decide⟩

/-- C1: in every store state reachable from the three seed records by any
sequence of create, update and delete requests, every record satisfies the
field rules: its price is non-negative and its name, description and
category are non-empty (inStock is a boolean by the type of `Product`). -/
theorem impl_C1 (s : List Product) (h : Reachable s) :
    ∀ p ∈ s, GoodProduct p := by
  unfold Reachable at h
  induction h with
  | refl => exact initialProducts_good
  | tail h1 st ih => exact storeStep_good st ih

/-- Witness for C1: the seed store itself is reachable and its first record
satisfies the field rules. -/
theorem impl_C1_witness : GoodProduct seedLaptop :=
  impl_C1 initialProducts Relation.ReflTransGen.refl _ (by simp [initialProducts])

/-! ## Pagination lemmas (C3) -/

theorem jsSliceBound_nonneg (len : Nat) (i : Int) (h : 0 ≤ i) :
    jsSliceBound len i = min i.toNat len := by
  unfold jsSliceBound
  rw [if_neg (not_lt.mpr h)]

theorem jsSlice_nonneg {α : Type} (l : List α) (a b : Int) (ha : 0 ≤ a) (hb : 0 ≤ b) :
    jsSlice l a b = (l.drop a.toNat).take (b.toNat - a.toNat) := by
  unfold jsSlice
  rw [jsSliceBound_nonneg _ _ ha, jsSliceBound_nonneg _ _ hb]
  rcases le_or_lt l.length a.toNat with hlen | hlen
  · rw [min_eq_right hlen, List.drop_length, List.drop_eq_nil_of_le hlen]
    simp
  · rw [min_eq_left (le_of_lt hlen)]
    rcases le_or_lt b.toNat l.length with hble | hble
    · rw [min_eq_left hble]
    · rw [min_eq_right (le_of_lt hble),
        List.take_of_length_le (by simp [List.length_drop]),
        List.take_of_length_le (by rw [List.length_drop]; omega)]

/-- C3 (amended): page defaults to 1 and limit to 10, also when the query
value does not parse to an integer; whenever the coerced page and limit are
at least 1 — in particular always under the defaults — the returned slice is
`[(page-1)*limit, page*limit)` of the filtered store, an out-of-range page
yields the empty slice, and `totalPages = ceil(filteredCount / limit)`.
(The un-amended claim fails for negative coerced values, which JavaScript
slice semantics interpret relative to the end of the array: see the
counterexample.) -/
theorem impl_C3 (store : List Product) (q : ListQuery)
    (hp : 1 ≤ pageOf q) (hl : 1 ≤ limitOf q) :
    (q.page = none → pageOf q = 1)
    ∧ (q.page.bind jsParseInt = none → pageOf q = 1)
    ∧ (q.limit = none → limitOf q = 10)
    ∧ (q.limit.bind jsParseInt = none → limitOf q = 10)
    ∧ (getProducts store q).1 =
        ((applyFilters store q).drop ((pageOf q - 1) * limitOf q).toNat).take
          (limitOf q).toNat
    ∧ (((applyFilters store q).length : Int) ≤ (pageOf q - 1) * limitOf q →
        (getProducts store q).1 = [])
    ∧ (getProducts store q).2.totalPages =
        ⌈((applyFilters store q).length : ℚ) / ((limitOf q : Int) : ℚ)⌉
    ∧ (getProducts store q).2.currentPage = pageOf q
    ∧ (getProducts store q).2.totalProducts = (applyFilters store q).length
    ∧ (getProducts store q).2.productsPerPage = limitOf q := by
  have hs0 : (0 : Int) ≤ (pageOf q - 1) * limitOf q := mul_nonneg (by omega) (by omega)
  have he0 : (0 : Int) ≤ pageOf q * limitOf q := mul_nonneg (by omega) (by omega)
  have hslice : (getProducts store q).1 =
      ((applyFilters store q).drop ((pageOf q - 1) * limitOf q).toNat).take
        ((pageOf q * limitOf q).toNat - ((pageOf q - 1) * limitOf q).toNat) := by
    show jsSlice (applyFilters store q) ((pageOf q - 1) * limitOf q)
      (pageOf q * limitOf q) = _
    exact jsSlice_nonneg _ _ _ hs0 he0
  have hcnt : (pageOf q * limitOf q).toNat - ((pageOf q - 1) * limitOf q).toNat =
      (limitOf q).toNat := by
    have hd : pageOf q * limitOf q = (pageOf q - 1) * limitOf q + limitOf q := by ring
    omega
  rw [hcnt] at hslice
  refine ⟨?_, ?_, ?_, ?_, hslice, ?_, ?_, rfl, rfl, rfl⟩
  · intro h
    simp [pageOf, parseIntDefault, h]
  · intro h
    simp [pageOf, parseIntDefault, h]
  · intro h
    simp [limitOf, parseIntDefault, h]
  · intro h
    simp [limitOf, parseIntDefault, h]
  · intro h
    rw [hslice, List.drop_eq_nil_of_le (by omega)]
    simp
  · show qceil (qdiv (((applyFilters store q).length : ℚ)) ((limitOf q : ℚ))) = _
    rw [qceil_eq, qdiv_eq]

/-- Witness for C3: the seed store with an empty query; both hypotheses hold
under the defaults page = 1 and limit = 10. -/
theorem impl_C3_witness :
    1 ≤ pageOf ⟨none, none, none, none⟩
    ∧ 1 ≤ limitOf ⟨none, none, none, none⟩
    ∧ (getProducts initialProducts ⟨none, none, none, none⟩).1 =
        ((applyFilters initialProducts ⟨none, none, none, none⟩).drop
          ((pageOf ⟨none, none, none, none⟩ - 1) *
            limitOf ⟨none, none, none, none⟩).toNat).take
          (limitOf ⟨none, none, none, none⟩).toNat :=
  ⟨by decide, by decide,
    (impl_C3 initialProducts ⟨none, none, none, none⟩ (by decide) (by decide)).2.2.2.2.1⟩

/-- Counterexample to C3 as stated: on a 25-record store, `page=-1` with the
default limit 10 coerces to page = -1 (no fallback to the default), and the
returned slice is records 5 to 14 — the absolute index range [(page-1)*limit,
page*limit) = [-20,-10) contains no valid index, so the claimed slice is
empty, and a fall-back-to-default reading would give the first 10 records;
the code returns neither, and the out-of-range page does not yield an empty
slice. -/
theorem impl_C3_cex :
    pageOf cexQuery = -1
    ∧ limitOf cexQuery = 10
    ∧ (getProducts cexStore cexQuery).1 = (cexStore.drop 5).take 10
    ∧ (getProducts cexStore cexQuery).1 ≠ []
    ∧ (getProducts cexStore cexQuery).1 ≠ cexStore.take 10 :=
  ⟨by decide, by decide, by decide, by decide, by decide⟩

/-! ## Statistics lemmas (C5) -/

theorem countLookup_bump (m : List (String × Nat)) (c d : String) :
    countLookup (bumpCategory m c) d = countLookup m d + (if c = d then 1 else 0) := by
  induction m with
  | nil =>
    by_cases h : c = d <;> simp [bumpCategory, countLookup, h]
  | cons kv rest ih =>
    obtain ⟨k, n⟩ := kv
    by_cases hkc : k = c
    · subst hkc
      by_cases hkd : k = d
      · subst hkd
        simp [bumpCategory, countLookup]
      · simp [bumpCategory, countLookup, hkd]
    · by_cases hkd : k = d
      · have hcd : ¬(c = d) := fun h => hkc (hkd.trans h.symm)
        have hdc : ¬(d = c) := fun h => hcd h.symm
        simp [bumpCategory, countLookup, hkc, hkd, hcd, hdc]
      · simp [bumpCategory, countLookup, hkc, hkd, ih]

theorem countLookup_foldl (l : List Product) (m : List (String × Nat)) (d : String) :
    countLookup (l.foldl (fun acc p => bumpCategory acc p.category) m) d =
      countLookup m d + l.countP (fun p => p.category == d) := by
  induction l generalizing m with
  | nil => simp
  | cons p rest ih =>
    simp only [List.foldl_cons, ih, countLookup_bump, List.countP_cons]
    by_cases h : p.category = d
    · simp [h]
      omega
    · simp [h]

theorem foldl_qmin_le_init (l : List ℚ) (a : ℚ) : l.foldl qmin a ≤ a := by
  induction l generalizing a with
  | nil => exact le_refl a
  | cons b rest ih =>
    refine le_trans (ih (qmin a b)) ?_
    rw [qmin_eq]
    exact min_le_left a b

theorem foldl_qmin_le_mem (l : List ℚ) : ∀ a x, x ∈ l → l.foldl qmin a ≤ x := by
  induction l with
  | nil =>
    intro a x hx
    cases hx
  | cons b rest ih =>
    intro a x hx
    rcases List.mem_cons.mp hx with rfl | hm
    · refine le_trans (foldl_qmin_le_init rest (qmin a x)) ?_
      rw [qmin_eq]
      exact min_le_right a x
    · exact ih _ _ hm

theorem foldl_qmin_attained (l : List ℚ) : ∀ a, l.foldl qmin a = a ∨ l.foldl qmin a ∈ l := by
  induction l with
  | nil =>
    intro a
    exact Or.inl rfl
  | cons b rest ih =>
    intro a
    simp only [List.foldl_cons]
    rcases ih (qmin a b) with h | h
    · rw [h]
      by_cases hab : a ≤ b
      · rw [qmin, if_pos hab]
        exact Or.inl rfl
      · rw [qmin, if_neg hab]
        exact Or.inr (List.mem_cons_self b rest)
    · exact Or.inr (List.mem_cons_of_mem b h)

theorem foldl_qmax_ge_init (l : List ℚ) (a : ℚ) : a ≤ l.foldl qmax a := by
  induction l generalizing a with
  | nil => exact le_refl a
  | cons b rest ih =>
    refine le_trans ?_ (ih (qmax a b))
    rw [qmax_eq]
    exact le_max_left a b

theorem foldl_qmax_ge_mem (l : List ℚ) : ∀ a x, x ∈ l → x ≤ l.foldl qmax a := by
  induction l with
  | nil =>
    intro a x hx
    cases hx
  | cons b rest ih =>
    intro a x hx
    rcases List.mem_cons.mp hx with rfl | hm
    · refine le_trans ?_ (foldl_qmax_ge_init rest (qmax a x))
      rw [qmax_eq]
      exact le_max_right a x
    · exact ih _ _ hm

theorem foldl_qmax_attained (l : List ℚ) : ∀ a, l.foldl qmax a = a ∨ l.foldl qmax a ∈ l := by
  induction l with
  | nil =>
    intro a
    exact Or.inl rfl
  | cons b rest ih =>
    intro a
    simp only [List.foldl_cons]
    rcases ih (qmax a b) with h | h
    · rw [h]
      by_cases hab : a ≤ b
      · rw [qmax, if_pos hab]
        exact Or.inr (List.mem_cons_self b rest)
      · rw [qmax, if_neg hab]
        exact Or.inl rfl
    · exact Or.inr (List.mem_cons_of_mem b h)

theorem foldl_qadd_eq (l : List Product) : ∀ a : ℚ,
    l.foldl (fun s p => qadd s p.price) a = a + (l.map Product.price).sum := by
  induction l with
  | nil =>
    intro a
    simp
  | cons p rest ih =>
    intro a
    rw [List.foldl_cons, ih (qadd a p.price), qadd_eq]
    simp only [List.map_cons, List.sum_cons]
    ring

theorem getStats_avg (store : List Product) (h : store ≠ []) :
    (getStats store).averagePrice =
      ((⌊(store.map Product.price).sum / (store.length : ℚ) * 100 + 1 / 2⌋ : Int) : ℚ) / 100 := by
  have hlen : 0 < store.length := List.length_pos.mpr h
  unfold getStats
  dsimp only
  rw [if_pos hlen, foldl_qadd_eq, zero_add, Rat.divInt_eq_div, jsRound_eq, qmul_eq, qdiv_eq]
  push_cast
  ring_nf

theorem getStats_min_le (store : List Product) (p : Product) (hp : p ∈ store) :
    (getStats store).priceMin ≤ p.price := by
  have hlen : 0 < store.length := List.length_pos.mpr (by rintro rfl; cases hp)
  have hxp : p.price ∈ store.map Product.price := List.mem_map_of_mem _ hp
  unfold getStats
  dsimp only
  rw [if_pos hlen]
  cases hm : store.map Product.price with
  | nil =>
    rw [hm] at hxp
    cases hxp
  | cons a r =>
    rw [hm] at hxp
    simp only [minPriceOf]
    rcases List.mem_cons.mp hxp with heq | hmem
    · rw [heq]
      exact foldl_qmin_le_init r a
    · exact foldl_qmin_le_mem r a _ hmem

theorem getStats_max_ge (store : List Product) (p : Product) (hp : p ∈ store) :
    p.price ≤ (getStats store).priceMax := by
  have hlen : 0 < store.length := List.length_pos.mpr (by rintro rfl; cases hp)
  have hxp : p.price ∈ store.map Product.price := List.mem_map_of_mem _ hp
  unfold getStats
  dsimp only
  rw [if_pos hlen]
  cases hm : store.map Product.price with
  | nil =>
    rw [hm] at hxp
    cases hxp
  | cons a r =>
    rw [hm] at hxp
    simp only [maxPriceOf]
    rcases List.mem_cons.mp hxp with heq | hmem
    · rw [heq]
      exact foldl_qmax_ge_init r a
    · exact foldl_qmax_ge_mem r a _ hmem

theorem getStats_min_mem (store : List Product) (h : store ≠ []) :
    (getStats store).priceMin ∈ store.map Product.price := by
  have hlen : 0 < store.length := List.length_pos.mpr h
  unfold getStats
  dsimp only
  rw [if_pos hlen]
  cases hm : store.map Product.price with
  | nil => exact absurd (List.map_eq_nil_iff.mp hm) h
  | cons a r =>
    simp only [minPriceOf]
    rcases foldl_qmin_attained r a with he | he
    · rw [he]
      exact List.mem_cons_self a r
    · exact List.mem_cons_of_mem a he

theorem getStats_max_mem (store : List Product) (h : store ≠ []) :
    (getStats store).priceMax ∈ store.map Product.price := by
  have hlen : 0 < store.length := List.length_pos.mpr h
  unfold getStats
  dsimp only
  rw [if_pos hlen]
  cases hm : store.map Product.price with
  | nil => exact absurd (List.map_eq_nil_iff.mp hm) h
  | cons a r =>
    simp only [maxPriceOf]
    rcases foldl_qmax_attained r a with he | he
    · rw [he]
      exact List.mem_cons_self a r
    · exact List.mem_cons_of_mem a he

/-- C5: over the full unfiltered store, stats reports the record count, the
in-stock and out-of-stock counts, a per-category record count, the average
price rounded to two decimals (0 on the empty store), and the least and
greatest price (0 and 0 on the empty store); on the seed this gives
totalProducts = 3, inStockCount = 2, averagePrice = 683.33 and price range
50 to 1200. -/
theorem impl_C5 (store : List Product) :
    (getStats store).totalProducts = store.length
    ∧ (getStats store).inStockCount = store.countP (fun p => p.inStock)
    ∧ (getStats store).outOfStockCount = store.countP (fun p => !p.inStock)
    ∧ (∀ c, countLookup (getStats store).categoryCounts c =
        store.countP (fun p => p.category == c))
    ∧ (store = [] → (getStats store).averagePrice = 0
        ∧ (getStats store).priceMin = 0 ∧ (getStats store).priceMax = 0)
    ∧ (store ≠ [] → (getStats store).averagePrice =
        ((⌊(store.map Product.price).sum / (store.length : ℚ) * 100 + 1 / 2⌋ : Int) : ℚ) / 100)
    ∧ (∀ p ∈ store, (getStats store).priceMin ≤ p.price ∧ p.price ≤ (getStats store).priceMax)
    ∧ (store ≠ [] → (getStats store).priceMin ∈ store.map Product.price
        ∧ (getStats store).priceMax ∈ store.map Product.price)
    ∧ (getStats initialProducts).totalProducts = 3
    ∧ (getStats initialProducts).inStockCount = 2
    ∧ (getStats initialProducts).outOfStockCount = 1
    ∧ (getStats initialProducts).averagePrice = 68333 / 100
    ∧ (getStats initialProducts).priceMin = 50
    ∧ (getStats initialProducts).priceMax = 1200 := by
  refine ⟨rfl, (List.countP_eq_length_filter _ _).symm, (List.countP_eq_length_filter _ _).symm,
    ?_, ?_, getStats_avg store, ?_, ?_, by decide, by decide, by decide, ?_, by decide, by decide⟩
  · intro c
    have h := countLookup_foldl store [] c
    simpa [countLookup] using h
  · rintro rfl
    exact ⟨rfl, rfl, rfl⟩
  · intro p hp
    exact ⟨getStats_min_le store p hp, getStats_max_ge store p hp⟩
  · intro hne
    exact ⟨getStats_min_mem store hne, getStats_max_mem store hne⟩
  · have h : (getStats initialProducts).averagePrice = Rat.divInt 68333 100 := by decide
    rw [h, Rat.divInt_eq_div]
    norm_num

/-- Witness for C5 at the seed store: it is non-empty and its reported
minimum and maximum price are prices of actual records. -/
theorem impl_C5_witness :
    initialProducts ≠ []
    ∧ (getStats initialProducts).priceMin ∈ initialProducts.map Product.price
    ∧ (getStats initialProducts).priceMax ∈ initialProducts.map Product.price := by
  have h := (impl_C5 initialProducts).2.2.2.2.2.2.2.1 (by decide)
  exact ⟨by decide, h.1, h.2⟩

/-! ## Search (C6) -/

/-- C6: search demands a truthy query: an absent or empty q yields the 400
ValidationError; otherwise the response echoes the query, its count is the
number of results, and the results are exactly the records of the store
whose name or description contains q as a case-insensitive substring; the
handler returns no new store. -/
theorem impl_C6 (store : List Product) (q : Option String) :
    ((q = none ∨ q = some "") →
      searchProducts store q =
        Except.error (ApiError.validation "Search query parameter \"q\" is required"))
    ∧ (ApiError.validation "Search query parameter \"q\" is required").statusCode = 400
    ∧ (∀ s, q = some s → s ≠ "" →
        ∃ r, searchProducts store q = Except.ok r
          ∧ r.query = s
          ∧ r.count = r.results.length
          ∧ (∀ p, p ∈ r.results ↔ p ∈ store ∧
              (CaseInsensitiveSubstr s p.name ∨ CaseInsensitiveSubstr s p.description))
          ∧ r.results = store.filter (fun p =>
              strIncludes (jsToLower p.name) (jsToLower s) ||
              strIncludes (jsToLower p.description) (jsToLower s))) := by
  refine ⟨?_, rfl, ?_⟩
  · rintro (rfl | rfl) <;> rfl
  · rintro s rfl hs
    have ht : jsStrTruthy (some s) = true := by simpa [jsStrTruthy] using hs
    have hrun : searchProducts store (some s) =
        Except.ok { query := s
                  , results := store.filter (fun p =>
                      strIncludes (jsToLower p.name) (jsToLower s) ||
                      strIncludes (jsToLower p.description) (jsToLower s))
                  , count := (store.filter (fun p =>
                      strIncludes (jsToLower p.name) (jsToLower s) ||
                      strIncludes (jsToLower p.description) (jsToLower s))).length } := by
      unfold searchProducts
      rw [if_pos ht]
      rfl
    refine ⟨_, hrun, rfl, rfl, ?_, rfl⟩
    intro p
    constructor
    · intro hp
      have hm := List.mem_filter.mp hp
      refine ⟨hm.1, ?_⟩
      have hm2 : strIncludes (jsToLower p.name) (jsToLower s) = true ∨
          strIncludes (jsToLower p.description) (jsToLower s) = true := by
        simpa using hm.2
      rcases hm2 with h | h
      · exact Or.inl ((strIncludes_iff _ _).mp h)
      · exact Or.inr ((strIncludes_iff _ _).mp h)
    · rintro ⟨hmem, hor⟩
      refine List.mem_filter.mpr ⟨hmem, ?_⟩
      rcases hor with h | h
      · have h2 := (strIncludes_iff (jsToLower p.name) (jsToLower s)).mpr h
        simp [h2]
      · have h2 := (strIncludes_iff (jsToLower p.description) (jsToLower s)).mpr h
        simp [h2]

/-- Witness for C6: a search with no query on the seed store yields the 400
ValidationError. -/
theorem impl_C6_witness :
    searchProducts initialProducts none =
      Except.error (ApiError.validation "Search query parameter \"q\" is required") :=
  (impl_C6 initialProducts none).1 (Or.inl rfl)

/-! ## Create (C7) -/

/-- C7: a successful create appends exactly the sanitized record at the end
of the store and returns it with status 201: name and description trimmed,
category trimmed and lower-cased, price and inStock passed through, the id
taken from the generator and never from the body; the store grows by exactly
one and the existing records are untouched. -/
theorem impl_C7 (store : List Product) (b : ReqBody) (g : String)
    (hv : validateProduct b = []) :
    postProducts store (some apiSecret) b g =
      (Except.ok (201, sanitizedProduct g b), store ++ [sanitizedProduct g b])
    ∧ (sanitizedProduct g b).id = g
    ∧ (sanitizedProduct g b).name = jsTrim b.name.getStr
    ∧ (sanitizedProduct g b).description = jsTrim b.description.getStr
    ∧ (sanitizedProduct g b).price = b.price.getNum
    ∧ (sanitizedProduct g b).category = jsToLower (jsTrim b.category.getStr)
    ∧ (sanitizedProduct g b).inStock = b.inStock.getBool
    ∧ (store ++ [sanitizedProduct g b]).length = store.length + 1
    ∧ (store ++ [sanitizedProduct g b]).take store.length = store := by
  refine ⟨?_, rfl, rfl, rfl, rfl, rfl, rfl, by simp, List.take_left store _⟩
  unfold postProducts
  rw [authCheck_secret "POST", (validationStage_ok_iff b).mpr hv]

/-- Witness for C7: creating from a valid body with padding, an upper-case
category and a stray id field appends the sanitized record to the seed. -/
theorem impl_C7_witness :
    validateProduct validBody = []
    ∧ postProducts initialProducts (some apiSecret) validBody "99" =
        (Except.ok (201, sanitizedProduct "99" validBody),
          initialProducts ++ [sanitizedProduct "99" validBody])
    ∧ (sanitizedProduct "99" validBody).id = "99"
    ∧ (sanitizedProduct "99" validBody).name = "Phone"
    ∧ (sanitizedProduct "99" validBody).category = "gadgets" := by
  have h := impl_C7 initialProducts validBody "99" (by decide)
  exact ⟨by decide, h.1, h.2.1, by decide, by decide⟩

/-! ## Update (C8) -/

theorem findIdx?_eq_some_of {α : Type} (pred : α → Bool) (l : List α) :
    ∀ (i : Nat) (x : α), l[i]? = some x → pred x = true →
      (l.take i).all (fun y => !(pred y)) = true →
      l.findIdx? pred = some i := by
  induction l with
  | nil =>
    intro i x hi _ _
    simp at hi
  | cons a as ih =>
    intro i x hi hx hbefore
    cases i with
    | zero =>
      rw [List.getElem?_cons_zero] at hi
      injection hi with hi
      subst hi
      rw [List.findIdx?_cons, if_pos hx]
    | succ n =>
      rw [List.take_succ_cons, List.all_cons, Bool.and_eq_true] at hbefore
      have ha : pred a = false := by simpa using hbefore.1
      have hi2 : as[n]? = some x := by simpa using hi
      have hb2 : (as.take n).all (fun y => !(pred y)) = true := hbefore.2
      rw [List.findIdx?_cons, if_neg (by simp [ha]), List.findIdx?_succ, ih n x hi2 hx hb2]
      rfl

/-- C8: with a valid body and the correct credential, updating an existing id
replaces the record wholesale in place — the store keeps its length, the
records before and after the position are untouched, the new record sits at
the original position and keeps the id from the route — while updating an
absent id yields the 404 NotFoundError and leaves the store unchanged. -/
theorem impl_C8 (store : List Product) (b : ReqBody) (pid : String)
    (hv : validateProduct b = []) :
    (store.all (fun p => !(p.id == pid)) = true →
      putProduct store (some apiSecret) pid b =
        (Except.error (ApiError.notFound ("Product with ID " ++ pid ++ " not found")), store))
    ∧ (ApiError.notFound ("Product with ID " ++ pid ++ " not found")).statusCode = 404
    ∧ (∀ i p0, store[i]? = some p0 → p0.id = pid →
        (store.take i).all (fun p => !(p.id == pid)) = true →
        putProduct store (some apiSecret) pid b =
          (Except.ok (200, sanitizedProduct pid b),
            store.take i ++ sanitizedProduct pid b :: store.drop (i + 1))
        ∧ (sanitizedProduct pid b).id = pid
        ∧ (store.take i ++ sanitizedProduct pid b :: store.drop (i + 1)).length = store.length
        ∧ (store.take i ++ sanitizedProduct pid b :: store.drop (i + 1)).take i = store.take i
        ∧ (store.take i ++ sanitizedProduct pid b :: store.drop (i + 1)).drop (i + 1) =
            store.drop (i + 1)
        ∧ (store.take i ++ sanitizedProduct pid b :: store.drop (i + 1))[i]? =
            some (sanitizedProduct pid b)) := by
  refine ⟨?_, rfl, ?_⟩
  · intro hall
    unfold putProduct
    rw [authCheck_secret "PUT", (validationStage_ok_iff b).mpr hv,
      List.findIdx?_eq_none_iff.mpr (fun x hx => by
        simpa using List.all_eq_true.mp hall x hx)]
  · intro i p0 hi hpid htake
    obtain ⟨hlt, hget⟩ := List.getElem?_eq_some_iff.mp hi
    have hfind : store.findIdx? (fun p => p.id == pid) = some i :=
      findIdx?_eq_some_of _ store i p0 hi (by simp [hpid]) htake
    have hlen : (store.take i).length = i := by
      rw [List.length_take]
      omega
    refine ⟨?_, rfl, ?_, ?_, ?_, ?_⟩
    · unfold putProduct
      rw [authCheck_secret "PUT", (validationStage_ok_iff b).mpr hv, hfind]
      dsimp only
      rw [List.set_eq_take_append_cons_drop, if_pos hlt]
    · rw [List.length_append, List.length_cons, List.length_drop, hlen]
      omega
    · have h := List.take_left (store.take i) (sanitizedProduct pid b :: store.drop (i + 1))
      rw [hlen] at h
      exact h
    · have hlen1 : (store.take i ++ [sanitizedProduct pid b]).length = i + 1 := by
        rw [List.length_append, hlen]
        rfl
      have h2 := List.drop_left (store.take i ++ [sanitizedProduct pid b]) (store.drop (i + 1))
      rw [hlen1] at h2
      calc (store.take i ++ sanitizedProduct pid b :: store.drop (i + 1)).drop (i + 1)
          = ((store.take i ++ [sanitizedProduct pid b]) ++ store.drop (i + 1)).drop (i + 1) := by
            rw [List.append_assoc, List.singleton_append]
        _ = store.drop (i + 1) := h2
    · rw [List.getElem?_append_right (by rw [hlen])]
      rw [hlen, Nat.sub_self, List.getElem?_cons_zero]

/-- Witness for C8: replacing the record with id 2 in the seed store keeps it
at position 1 with the same id. -/
theorem impl_C8_witness :
    validateProduct validBody = []
    ∧ putProduct initialProducts (some apiSecret) "2" validBody =
        (Except.ok (200, sanitizedProduct "2" validBody),
          initialProducts.take 1 ++ sanitizedProduct "2" validBody :: initialProducts.drop 2) := by
  have h := (impl_C8 initialProducts validBody "2" (by decide)).2.2 1 seedSmartphone
    (by decide) (by decide) (by decide)
  exact ⟨by decide, h.1⟩

/-! ## Route ordering (C9) -/

/-- C9: the literal search and stats paths are dispatched before the
parametric :id route: a GET on /api/products/search always runs the search
handler (so without q it yields the 400 ValidationError, never a 404), a GET
on /api/products/stats always returns the statistics, even though both paths
do match the /api/products/:id pattern with captures "search" and "stats". -/
theorem impl_C9 (store : List Product) (q : GetQuery) :
    dispatchGet store "/api/products/search" q =
      (match searchProducts store q.q with
       | Except.ok r => GetResponse.search r
       | Except.error e => GetResponse.apiError e)
    ∧ dispatchGet store "/api/products/stats" q = GetResponse.stats (getStats store)
    ∧ dispatchGet store "/api/products/search"
        { category := q.category, inStock := q.inStock, page := q.page
        , limit := q.limit, q := none } =
        GetResponse.apiError (ApiError.validation "Search query parameter \"q\" is required")
    ∧ responseStatus (dispatchGet store "/api/products/search"
        { category := q.category, inStock := q.inStock, page := q.page
        , limit := q.limit, q := none }) = 400
    ∧ routeParam "/api/products/search" = some "search"
    ∧ routeParam "/api/products/stats" = some "stats" := by
  refine ⟨?_, ?_, rfl, rfl, by decide, by decide⟩
  · unfold dispatchGet
    rw [if_neg (by decide), if_neg (by decide), if_pos rfl]
  · unfold dispatchGet
    rw [if_neg (by decide), if_neg (by decide), if_neg (by decide), if_pos rfl]

/-! ## Extra body fields are discarded (C10) -/

/-- C10: the create and update handlers build the stored record field by
field from the five documented fields plus the id, so two bodies that differ
only in extra fields (including a client-supplied id) produce identical
outcomes, and the sanitized record itself ignores the extra fields; a stored
record has exactly the six fields of `Product` by its type. -/
theorem impl_C10 (store : List Product) (k : Option String) (g pid : String)
    (b : ReqBody) (e₁ e₂ : List (String × JSValue)) :
    postProducts store k { b with extra := e₁ } g =
      postProducts store k { b with extra := e₂ } g
    ∧ putProduct store k pid { b with extra := e₁ } =
      putProduct store k pid { b with extra := e₂ }
    ∧ sanitizedProduct g { b with extra := e₁ } = sanitizedProduct g b :=
  ⟨rfl, rfl, rfl⟩
